import Mathlib

/-!
Formal model of the trophallaxis prefilter module
(bb_behavior/trophallaxis/prefilter.py).

Conventions of the embedding:
* Poses are triples of real numbers (x, y, orientation), mirroring the
  three-element NumPy arrays the scoring functions receive.
* NumPy in-place effects are made explicit.  In the source,
  head0 = xy0[:2] is a view of the input array and the subsequent
  += writes through it, so calculate_head_distance returns, besides the
  distance value, the final contents of both input arrays.
* Machine floats are modelled as real numbers; unsigned integer casts
  (astype) are modelled as reduction modulo 2 to the width.
* The external collaborators (tracking database, frame enumeration,
  frame metadata) are parameters of the model, bundled in Env, since
  the source treats them as opaque services.
-/

structure Pose where
  x : ℝ
  y : ℝ
  orientation : ℝ

/-- Euclidean norm of a 2-vector, as used by np.linalg.norm on
difference vectors in the source. -/
noncomputable def norm2 (dx dy : ℝ) : ℝ := Real.sqrt (dx ^ 2 + dy ^ 2)

/-- Model of calculate_head_distance.  In the source, head0 = xy0[:2]
is a NumPy view of xy0, so the += below mutates the caller arrays; the
second and third components of the result are the final contents of
xy0 and xy1 after the call. -/
noncomputable def calculate_head_distance (xy0 xy1 : Pose) : ℝ × Pose × Pose :=
  let head0x := xy0.x + 3.19 * Real.cos xy0.orientation
  let head0y := xy0.y + 3.19 * Real.sin xy0.orientation
  let head1x := xy1.x + 3.19 * Real.cos xy1.orientation
  let head1y := xy1.y + 3.19 * Real.sin xy1.orientation
  (norm2 (head0x - head1x) (head0y - head1y),
   { xy0 with x := head0x, y := head0y },
   { xy1 with x := head1x, y := head1y })

/-- Model of calculate_angle_dot_distance: dot product of the two
heading unit vectors. -/
noncomputable def calculate_angle_dot_distance (r0 r1 : ℝ) : ℝ :=
  Real.cos r0 * Real.cos r1 + Real.sin r0 * Real.sin r1

/-- Logistic function 1 / (1 + exp (-z)), the last step of the
accepted branch of probability_distance_fun_. -/
noncomputable def sigmoid (z : ℝ) : ℝ := 1 / (1 + Real.exp (-z))

/-- Model of probability_distance_fun_.  Returns the score together
with the final contents of the two input arrays (which the head
distance computation mutates on the accepted branch). -/
noncomputable def probability_distance_fun_ (xy0 xy1 : Pose)
    (beta0 beta1 beta2 bias hard_min hard_max : ℝ) : ℝ × Pose × Pose :=
  let distance := norm2 (xy0.x - xy1.x) (xy0.y - xy1.y)
  if distance ≤ hard_min ∨ distance ≥ hard_max then (0.0, xy0, xy1)
  else
    let hd := calculate_head_distance xy0 xy1
    let z := distance * beta0 + hd.1 * beta1 +
      calculate_angle_dot_distance hd.2.1.orientation hd.2.2.orientation * beta2 + bias
    (sigmoid z, hd.2.1, hd.2.2)

/-- Calibrated hard lower bound on centroid distance (literal from
probability_distance_fun). -/
noncomputable def hard_min : ℝ := 6.843017734527588

/-- Calibrated hard upper bound on centroid distance (literal from
probability_distance_fun). -/
noncomputable def hard_max : ℝ := 28.133578964233394

/-- Model of probability_distance_fun: the production calibrated
instance of probability_distance_fun_. -/
noncomputable def probability_distance_fun (xy0 xy1 : Pose) : ℝ × Pose × Pose :=
  probability_distance_fun_ xy0 xy1 2.04332357 (-1.56938987) 1.92212738 (-11.87978937)
    hard_min hard_max

/-- Model of probability_distance_fun_vectorized_.  The source body
allocates a fresh local buffer (rebinding the out parameter), fills it
with the element-wise scores, and falls off the end without a return
statement, so the computed buffer is discarded and the function
returns None. -/
noncomputable def probability_distance_fun_vectorized_ (xy0 xy1 : List Pose)
    (out : List ℝ) : Option (List ℝ) :=
  let _discarded_out : List ℝ := (List.range xy0.length).map fun i =>
    (probability_distance_fun (xy0.getD i ⟨0, 0, 0⟩) (xy1.getD i ⟨0, 0, 0⟩)).1
  none

/-- Model of probability_distance_fun_vectorized: allocates the buffer
and returns whatever the helper returns. -/
noncomputable def probability_distance_fun_vectorized (xy0 xy1 : List Pose) :
    Option (List ℝ) :=
  probability_distance_fun_vectorized_ xy0 xy1 (List.replicate xy0.length 0)

/-- Modelled from the spec: the batched variant applies the scalar
score element-wise over two equal-length sequences of poses.  Used as
the comparison point for the refinement claim about the vectorized
function. -/
noncomputable def map_probability_distance_spec (xy0 xy1 : List Pose) : List ℝ :=
  List.zipWith (fun a b => (probability_distance_fun a b).1) xy0 xy1

theorem sigmoid_pos (z : ℝ) : 0 < sigmoid z := by
  unfold sigmoid
  positivity

theorem sigmoid_lt_one (z : ℝ) : sigmoid z < 1 := by
  unfold sigmoid
  rw [div_lt_one (by positivity)]
  have h := Real.exp_pos (-z)
  linarith

/-- C1: if the centroid distance is at most hard_min or at least
hard_max, the calibrated score function returns exactly 0, for every
choice of the two orientation angles, and it returns the input poses
untouched (the head-distance and heading-alignment computations, which
would mutate them, are not reached on this branch). -/
theorem score_zero_outside_hard_bounds (x0 y0 x1 y1 : ℝ)
    (h : norm2 (x0 - x1) (y0 - y1) ≤ hard_min ∨ norm2 (x0 - x1) (y0 - y1) ≥ hard_max) :
    ∀ r0 r1 : ℝ, probability_distance_fun ⟨x0, y0, r0⟩ ⟨x1, y1, r1⟩ =
      ((0 : ℝ), ⟨x0, y0, r0⟩, ⟨x1, y1, r1⟩) := by
  intro r0 r1
  simp only [probability_distance_fun, probability_distance_fun_]
  rw [if_pos h]
  norm_num

/-- C1 witness: two coincident centroids have distance 0, below
hard_min, and the calibrated score there is exactly 0 with both poses
returned untouched. -/
theorem score_zero_outside_hard_bounds_witness :
    (norm2 ((0 : ℝ) - 0) ((0 : ℝ) - 0) ≤ hard_min ∨
      norm2 ((0 : ℝ) - 0) ((0 : ℝ) - 0) ≥ hard_max) ∧
    probability_distance_fun ⟨0, 0, 1⟩ ⟨0, 0, 2⟩ = ((0 : ℝ), ⟨0, 0, 1⟩, ⟨0, 0, 2⟩) := by
  have h : norm2 ((0 : ℝ) - 0) ((0 : ℝ) - 0) ≤ hard_min ∨
      norm2 ((0 : ℝ) - 0) ((0 : ℝ) - 0) ≥ hard_max := by
    left
    unfold norm2 hard_min
    norm_num
  exact ⟨h, score_zero_outside_hard_bounds 0 0 0 0 h 1 2⟩

/-- C2: the calibrated score always lies in the closed interval
[0, 1]; more precisely it is exactly 0 (rejected branch) or lies
strictly between 0 and 1 (the sigmoid value on the accepted branch). -/
theorem score_in_unit_interval (p0 p1 : Pose) :
    (0 : ℝ) ≤ (probability_distance_fun p0 p1).1 ∧
    (probability_distance_fun p0 p1).1 ≤ 1 ∧
    ((probability_distance_fun p0 p1).1 = 0 ∨
      (0 < (probability_distance_fun p0 p1).1 ∧ (probability_distance_fun p0 p1).1 < 1)) := by
  simp only [probability_distance_fun, probability_distance_fun_]
  split
  · norm_num
  · refine ⟨le_of_lt (sigmoid_pos _), le_of_lt (sigmoid_lt_one _), Or.inr ?_⟩
    exact ⟨sigmoid_pos _, sigmoid_lt_one _⟩

/-- C10: evaluating the head-distance computation mutates its inputs.
In the source, head0 = xy0[:2] is a view, so the in-place += adds the
head offset to the x and y of both input poses; at the concrete input
below, the first pose comes back as (3.19, 0, 0) instead of (0, 0, 0),
and the full calibrated score function (whose accepted branch runs the
head-distance computation) mutates it the same way. -/
theorem head_distance_mutates_inputs :
    (calculate_head_distance ⟨0, 0, 0⟩ ⟨10, 0, 0⟩).2.1 ≠ (⟨0, 0, 0⟩ : Pose) ∧
    (calculate_head_distance ⟨0, 0, 0⟩ ⟨10, 0, 0⟩).2.1.x = 3.19 ∧
    (probability_distance_fun ⟨0, 0, 0⟩ ⟨10, 0, 0⟩).2.1 ≠ (⟨0, 0, 0⟩ : Pose) := by
  have hch : (calculate_head_distance ⟨0, 0, 0⟩ ⟨10, 0, 0⟩).2.1 = ⟨3.19, 0, 0⟩ := by
    simp [calculate_head_distance]
  have hdist : norm2 ((0 : ℝ) - 10) ((0 : ℝ) - 0) = 10 := by
    unfold norm2
    rw [show ((0 : ℝ) - 10) ^ 2 + ((0 : ℝ) - 0) ^ 2 = 10 ^ 2 by norm_num]
    exact Real.sqrt_sq (by norm_num)
  have hmain : (probability_distance_fun ⟨0, 0, 0⟩ ⟨10, 0, 0⟩).2.1 =
      (calculate_head_distance ⟨0, 0, 0⟩ ⟨10, 0, 0⟩).2.1 := by
    simp only [probability_distance_fun, probability_distance_fun_]
    rw [hdist, if_neg (by unfold hard_min hard_max; norm_num)]
  refine ⟨?_, by rw [hch], ?_⟩
  · rw [hch]
    intro hcontra
    have hx : (3.19 : ℝ) = 0 := congrArg Pose.x hcontra
    norm_num at hx
  · rw [hmain, hch]
    intro hcontra
    have hx : (3.19 : ℝ) = 0 := congrArg Pose.x hcontra
    norm_num at hx

/-- C8: the vectorized scoring variant does not return the element-wise
scores; its helper discards the buffer it fills and returns no value,
so the function returns none at the concrete input below rather than
the element-wise application of the scalar score. -/
theorem vectorized_returns_none :
    probability_distance_fun_vectorized [⟨0, 0, 0⟩] [⟨10, 0, 0⟩] = none ∧
    probability_distance_fun_vectorized [⟨0, 0, 0⟩] [⟨10, 0, 0⟩] ≠
      some (map_probability_distance_spec [⟨0, 0, 0⟩] [⟨10, 0, 0⟩]) := by
  refine ⟨rfl, ?_⟩
  intro hcontra
  exact Option.noConfusion (hcontra.symm.trans rfl)

/-! Sweep model: frame subsampling, per-window processing, and the
resumable day-by-camera loop of prefilter_data_for_timerange. -/

/-- A frame tuple (timestamp, frame_id, cam_id) as yielded by the
frame-enumeration collaborator get_frames. -/
abbrev FrameInfo := ℕ × ℕ × ℕ

/-- A candidate row (frame_id, bee_id0, bee_id1). -/
abbrev Row := ℕ × ℕ × ℕ

/-- The enumerate-and-keep-every-third loop inside
iter_frames_to_filter: idx is the running enumeration index. -/
def iter_frames_go : ℕ → List FrameInfo → List FrameInfo
  | _, [] => []
  | idx, a :: rest =>
    if idx % 3 = 0 then a :: iter_frames_go (idx + 1) rest
    else iter_frames_go (idx + 1) rest

/-- Model of iter_frames_to_filter: keeps the frames at enumeration
indices 0, 3, 6, ... of the collaborator output, in order. -/
def iter_frames_to_filter (all_frames : List FrameInfo) : List FrameInfo :=
  iter_frames_go 0 all_frames

theorem iter_frames_go_mod (n : ℕ) (l : List FrameInfo) :
    iter_frames_go n l = iter_frames_go (n % 3) l := by
  induction l generalizing n with
  | nil => rfl
  | cons a rest ih =>
    simp only [iter_frames_go]
    rw [show n % 3 % 3 = n % 3 by omega, ih (n + 1), ih (n % 3 + 1),
      show (n + 1) % 3 = (n % 3 + 1) % 3 by omega]

theorem iter_frames_cons (a : FrameInfo) (rest : List FrameInfo) :
    iter_frames_to_filter (a :: rest) = a :: iter_frames_to_filter (rest.drop 2) := by
  show iter_frames_go 0 (a :: rest) = a :: iter_frames_go 0 (rest.drop 2)
  rw [iter_frames_go, if_pos (by norm_num)]
  congr 1
  cases rest with
  | nil => rfl
  | cons b r =>
    rw [iter_frames_go, if_neg (by norm_num)]
    cases r with
    | nil => rfl
    | cons c r2 =>
      rw [iter_frames_go, if_neg (by norm_num), iter_frames_go_mod 3 r2]
      rfl

theorem iter_frames_props (n : ℕ) : ∀ l : List FrameInfo, l.length ≤ n →
    (iter_frames_to_filter l).length = (l.length + 2) / 3 ∧
    ∀ k : ℕ, (iter_frames_to_filter l)[k]? = l[3 * k]? := by
  induction n with
  | zero =>
    intro l hl
    have hnil : l = [] := List.length_eq_zero.mp (Nat.le_zero.mp hl)
    subst hnil
    exact ⟨rfl, fun k => by simp [iter_frames_to_filter, iter_frames_go]⟩
  | succ n ih =>
    intro l hl
    cases l with
    | nil => exact ⟨rfl, fun k => by simp [iter_frames_to_filter, iter_frames_go]⟩
    | cons a rest =>
      have hlen : (rest.drop 2).length ≤ n := by
        rw [List.length_drop]
        simp only [List.length_cons] at hl
        omega
      obtain ⟨ihlen, ihget⟩ := ih (rest.drop 2) hlen
      constructor
      · rw [iter_frames_cons, List.length_cons, ihlen, List.length_drop, List.length_cons]
        omega
      · intro k
        cases k with
        | zero => rw [iter_frames_cons]; simp
        | succ k2 =>
          rw [iter_frames_cons, List.getElem?_cons_succ, ihget k2, List.getElem?_drop,
            show 3 * (k2 + 1) = (2 + 3 * k2) + 1 by ring, List.getElem?_cons_succ]

/-- C4: for every ordered frame sequence of length N produced by the
frame-enumeration collaborator, the subsampling step yields exactly
ceil(N / 3) tasks (written (N + 2) / 3 in natural division), and the
k-th task is the frame at index 3 * k of the input, in order. -/
theorem iter_frames_ceil_third (l : List FrameInfo) :
    (iter_frames_to_filter l).length = (l.length + 2) / 3 ∧
    ∀ k : ℕ, (iter_frames_to_filter l)[k]? = l[3 * k]? :=
  iter_frames_props l.length l le_rfl

/-- Archive identity (cam_id, window_start_day, window_end_day): the
filename prefilter.cam_begin_end.zip determines and is determined by
this triple, so the model identifies the two. -/
abbrev ArchiveName := ℕ × ℕ × ℕ

/-- Model of the dt_to_string closure building the archive filename
for one window (cam, day start, day end = start + 1). -/
def output_filename (cam_id day : ℕ) : ArchiveName := (cam_id, day, day + 1)

/-- The external collaborators used by the sweep: frame enumeration per
(cam, day) window and the interaction fetch per frame (already
projected to its first three columns, as get_data_for_frame_id does). -/
structure Env where
  get_frames : ℕ → ℕ → List FrameInfo
  find_interactions : FrameInfo → List Row

/-- Model of process_frame_with_prefilter /
get_data_for_frame_id_high_recall: pairs the frame task with the
candidate table the fetch collaborator returns for it. -/
def process_frame_with_prefilter (env : Env) (t : FrameInfo) : FrameInfo × List Row :=
  (t, env.find_interactions t)

/-- The per-window reduction state: the result dictionary keyed by
(cam_id, timestamp, frame_id) and the failed-frame list. -/
structure WindowState where
  all_interaction_results : List ((ℕ × ℕ × ℕ) × List Row)
  all_failed_keys : List FrameInfo

/-- Python dictionary assignment on an association list: overwrite in
place if the key is present, append otherwise. -/
def dict_insert (d : List ((ℕ × ℕ × ℕ) × List Row)) (k : ℕ × ℕ × ℕ) (v : List Row) :
    List ((ℕ × ℕ × ℕ) × List Row) :=
  if d.any (fun p => p.1 == k) then d.map (fun p => if p.1 == k then (k, v) else p)
  else d ++ [(k, v)]

/-- Model of the save_data closure: an empty candidate table sends the
task key to the failed list, a non-empty one is stored in the result
dictionary under (cam_id, timestamp, frame_id). -/
def save_data (st : WindowState) (results : FrameInfo × List Row) : WindowState :=
  let timestamp := results.1.1
  let frame_id := results.1.2.1
  let cam_id := results.1.2.2
  let core_data := results.2
  if core_data.length = 0 then
    { st with all_failed_keys := st.all_failed_keys ++ [(timestamp, frame_id, cam_id)] }
  else
    { st with all_interaction_results :=
        dict_insert st.all_interaction_results (cam_id, timestamp, frame_id) core_data }

/-- Processing of one (cam, day) window: enumerate frames, subsample
every third, fetch candidates per task, and reduce with save_data
(executor.map preserves the task order of the generator). -/
def run_window (env : Env) (cam_id day : ℕ) : WindowState :=
  ((iter_frames_to_filter (env.get_frames cam_id day)).map
    (process_frame_with_prefilter env)).foldl save_data ⟨[], []⟩

/-- The day loop of prefilter_data_for_timerange: starting at
current_day_start, produce the day starts the loop body runs for.  The
loop breaks only when the day start strictly exceeds dt_to. -/
def sweep_days_loop (current_day_start dt_to : ℕ) : List ℕ :=
  if h : current_day_start > dt_to then []
  else current_day_start :: sweep_days_loop (current_day_start + 1) dt_to
termination_by dt_to + 1 - current_day_start
decreasing_by omega

/-- All (day, cam) windows the sweep visits, in visiting order: days
outer, the four cameras inner. -/
def sweep_windows (dt_from dt_to : ℕ) : List (ℕ × ℕ) :=
  (sweep_days_loop dt_from dt_to).flatMap fun day =>
    (List.range 4).map fun cam_id => (day, cam_id)

/-- The window loop over a filesystem state: fs is the set of archive
files present.  A window whose archive exists is skipped before any
frame enumeration; a window whose result dictionary ends up empty
writes nothing; otherwise the archive is written.  Returns the final
filesystem and the list of archives written, in order. -/
def run_sweep_go (env : Env) : List (ℕ × ℕ) → List ArchiveName →
    List ArchiveName × List ArchiveName
  | [], fs => (fs, [])
  | (day, cam_id) :: ws, fs =>
    if output_filename cam_id day ∈ fs then run_sweep_go env ws fs
    else if (run_window env cam_id day).all_interaction_results.length = 0 then
      run_sweep_go env ws fs
    else
      let r := run_sweep_go env ws (output_filename cam_id day :: fs)
      (r.1, output_filename cam_id day :: r.2)

/-- Model of prefilter_data_for_timerange: run the sweep over the
whole requested range against the filesystem fs. -/
def prefilter_data_for_timerange (env : Env) (dt_from dt_to : ℕ)
    (fs : List ArchiveName) : List ArchiveName × List ArchiveName :=
  run_sweep_go env (sweep_windows dt_from dt_to) fs

theorem run_sweep_go_mono (env : Env) (ws : List (ℕ × ℕ)) :
    ∀ (fs : List ArchiveName) (x : ArchiveName), x ∈ fs → x ∈ (run_sweep_go env ws fs).1 := by
  induction ws with
  | nil => intro fs x hx; exact hx
  | cons w0 ws ih =>
    intro fs x hx
    obtain ⟨day, cam_id⟩ := w0
    rw [run_sweep_go]
    by_cases hmem : output_filename cam_id day ∈ fs
    · rw [if_pos hmem]; exact ih fs x hx
    · rw [if_neg hmem]
      by_cases hempty : (run_window env cam_id day).all_interaction_results.length = 0
      · rw [if_pos hempty]; exact ih fs x hx
      · rw [if_neg hempty]
        exact ih _ x (List.mem_cons_of_mem _ hx)

theorem run_sweep_go_covers (env : Env) (ws : List (ℕ × ℕ)) :
    ∀ (fs : List ArchiveName) (w : ℕ × ℕ), w ∈ ws →
      output_filename w.2 w.1 ∈ (run_sweep_go env ws fs).1 ∨
      (run_window env w.2 w.1).all_interaction_results = [] := by
  induction ws with
  | nil => intro fs w hw; simp at hw
  | cons w0 ws ih =>
    intro fs w hw
    obtain ⟨day, cam_id⟩ := w0
    rw [run_sweep_go]
    rcases List.mem_cons.mp hw with hw0 | hwtail
    · subst hw0
      by_cases hmem : output_filename cam_id day ∈ fs
      · rw [if_pos hmem]
        exact Or.inl (run_sweep_go_mono env ws fs _ hmem)
      · rw [if_neg hmem]
        by_cases hempty : (run_window env cam_id day).all_interaction_results.length = 0
        · exact Or.inr (List.length_eq_zero.mp hempty)
        · rw [if_neg hempty]
          exact Or.inl (run_sweep_go_mono env ws _ _ (List.mem_cons_self _ _))
    · by_cases hmem : output_filename cam_id day ∈ fs
      · rw [if_pos hmem]; exact ih fs w hwtail
      · rw [if_neg hmem]
        by_cases hempty : (run_window env cam_id day).all_interaction_results.length = 0
        · rw [if_pos hempty]; exact ih fs w hwtail
        · rw [if_neg hempty]; exact ih _ w hwtail

theorem run_sweep_go_skip (env : Env) (ws : List (ℕ × ℕ)) :
    ∀ fs : List ArchiveName,
      (∀ w ∈ ws, output_filename w.2 w.1 ∈ fs ∨
        (run_window env w.2 w.1).all_interaction_results = []) →
      run_sweep_go env ws fs = (fs, []) := by
  induction ws with
  | nil => intro fs _; rfl
  | cons w0 ws ih =>
    intro fs h
    obtain ⟨day, cam_id⟩ := w0
    rw [run_sweep_go]
    have htail : ∀ w ∈ ws, output_filename w.2 w.1 ∈ fs ∨
        (run_window env w.2 w.1).all_interaction_results = [] :=
      fun w hw => h w (List.mem_cons_of_mem _ hw)
    rcases h (day, cam_id) (List.mem_cons_self _ _) with hmem | hempty
    · rw [if_pos hmem]
      exact ih fs htail
    · by_cases hmem : output_filename cam_id day ∈ fs
      · rw [if_pos hmem]; exact ih fs htail
      · rw [if_neg hmem, if_pos (by rw [hempty]; rfl)]
        exact ih fs htail

/-- C3: running the sweep a second time over the same date range, with
the same collaborator responses and starting from the filesystem the
first run left behind, writes no archive at all: every window either
already has its archive (skipped by the existence check) or again
produces an empty result dictionary. -/
theorem second_sweep_writes_nothing (env : Env) (dt_from dt_to : ℕ)
    (fs : List ArchiveName) :
    (prefilter_data_for_timerange env dt_from dt_to
      (prefilter_data_for_timerange env dt_from dt_to fs).1).2 = [] := by
  unfold prefilter_data_for_timerange
  rw [run_sweep_go_skip env (sweep_windows dt_from dt_to)
    (run_sweep_go env (sweep_windows dt_from dt_to) fs).1
    (fun w hw => run_sweep_go_covers env (sweep_windows dt_from dt_to) fs w hw)]

/-- C7: the day loop is inclusive of the end date, not half open.  For
the range from day 0 to day 1 it visits both day 0 and day 1 (so 2
days and 8 windows, not 1 day and 4 windows), and the window starting
at the end date itself, (1, cam 0), is among the processed windows. -/
theorem sweep_processes_end_day :
    sweep_days_loop 0 1 = [0, 1] ∧ (1, 0) ∈ sweep_windows 0 1 ∧
    (sweep_windows 0 1).length = 8 := by
  have h0 : sweep_days_loop 0 1 = [0, 1] := by
    rw [sweep_days_loop]
    norm_num
    rw [sweep_days_loop]
    norm_num
    rw [sweep_days_loop]
    norm_num
  refine ⟨h0, ?_, ?_⟩
  · unfold sweep_windows
    rw [h0]
    decide
  · unfold sweep_windows
    rw [h0]
    decide

/-! Archive store: the persistence casts of the write path and the
loader load_processed_data. -/

/-- NumPy astype to unsigned 64-bit: reduction modulo 2 to the 64. -/
def astype_uint64 (v : ℕ) : ℕ := v % 18446744073709551616

/-- NumPy astype to unsigned 16-bit: reduction modulo 2 to the 16.
NumPy array casts wrap silently; no exception is raised. -/
def astype_uint16 (v : ℕ) : ℕ := v % 65536

/-- The write path of prefilter_data_for_timerange from the
concatenated result table to the serialized row sequence: frame_id is
cast to unsigned 64-bit and both bee id columns to unsigned 16-bit,
then the rows are emitted in order (itertuples followed by msgpack
keeps the row sequence as is). -/
def persist_rows (data_df : List Row) : List Row :=
  data_df.map fun r => (astype_uint64 r.1, astype_uint16 r.2.1, astype_uint16 r.2.2)

/-- A loaded row joined with frame metadata:
(frame_id, bee_id0, bee_id1, timestamp). -/
abbrev MergedRow := ℕ × ℕ × ℕ × ℕ

/-- Model of load_processed_data from the point where the payload
bytes are deserialized.  The payload argument is the outcome of
msgpack.load: an exception (caught, yielding None) or a row sequence.
An empty sequence yields None.  Otherwise the rows are put in a table
with every column cast to unsigned 64-bit, and inner-joined with the
frame-metadata collaborator on frame_id: rows whose frame_id has no
metadata are dropped, the others keep their order and gain the
timestamp. -/
def load_processed_data (payload : Except String (List Row))
    (get_frame_metadata : ℕ → Option ℕ) : Option (List MergedRow) :=
  match payload with
  | .error _ => none
  | .ok data =>
    if data.length = 0 then none
    else
      let data64 := data.map fun r =>
        (astype_uint64 r.1, astype_uint64 r.2.1, astype_uint64 r.2.2)
      some (data64.filterMap fun r =>
        (get_frame_metadata r.1).map fun ts => (r.1, r.2.1, r.2.2, ts))

/-- C9: a payload that deserializes to the empty sequence yields the
null result, and a deserialization failure is caught and also yields
the null result; neither produces an empty table or an exception. -/
theorem load_empty_or_error_is_none (msg : String) (md : ℕ → Option ℕ) :
    load_processed_data (Except.error msg) md = none ∧
    load_processed_data (Except.ok []) md = none :=
  ⟨rfl, rfl⟩

theorem list_map_id_of_mem {α : Type} (f : α → α) :
    ∀ l : List α, (∀ x ∈ l, f x = x) → l.map f = l
  | [], _ => rfl
  | a :: l, h => by
    rw [List.map_cons, h a (List.mem_cons_self a l),
      list_map_id_of_mem f l (fun x hx => h x (List.mem_cons_of_mem a hx))]

theorem filterMap_metadata_props (md : ℕ → Option ℕ) :
    ∀ l : List Row, (∀ r ∈ l, (md r.1).isSome) →
      ((l.filterMap fun r => (md r.1).map fun ts => (r.1, r.2.1, r.2.2, ts)).map
        (fun m : MergedRow => (m.1, m.2.1, m.2.2.1)) = l) ∧
      (l.filterMap fun r => (md r.1).map fun ts => (r.1, r.2.1, r.2.2, ts)).length =
        l.length
  | [], _ => ⟨rfl, rfl⟩
  | r :: l, h => by
    obtain ⟨ts, hts⟩ := Option.isSome_iff_exists.mp (h r (List.mem_cons_self r l))
    obtain ⟨htail1, htail2⟩ :=
      filterMap_metadata_props md l (fun x hx => h x (List.mem_cons_of_mem r hx))
    rw [List.filterMap_cons, hts]
    exact ⟨by rw [Option.map_some', List.map_cons, htail1], by
      rw [Option.map_some']; simp [htail2]⟩

/-- C5: for a non-empty in-memory candidate table whose identifiers fit
their archive widths, writing through the persistence casts and
loading the payload back, with metadata available for every frame id,
yields a table with the same number of rows and the same frame_id,
bee_id0, bee_id1 values in the same order. -/
theorem archive_round_trip (rows : List Row) (md : ℕ → Option ℕ)
    (hne : rows ≠ [])
    (hrange : ∀ r ∈ rows, r.1 < 18446744073709551616 ∧ r.2.1 < 65536 ∧ r.2.2 < 65536)
    (hmd : ∀ r ∈ rows, (md r.1).isSome) :
    ∃ merged : List MergedRow,
      load_processed_data (Except.ok (persist_rows rows)) md = some merged ∧
      merged.map (fun m => (m.1, m.2.1, m.2.2.1)) = rows ∧
      merged.length = rows.length := by
  have hpersist : persist_rows rows = rows := by
    apply list_map_id_of_mem
    intro r hr
    obtain ⟨h1, h2, h3⟩ := hrange r hr
    show (astype_uint64 r.1, astype_uint16 r.2.1, astype_uint16 r.2.2) = r
    unfold astype_uint64 astype_uint16
    rw [Nat.mod_eq_of_lt h1, Nat.mod_eq_of_lt h2, Nat.mod_eq_of_lt h3]
  have hcast64 : (rows.map fun r =>
      (astype_uint64 r.1, astype_uint64 r.2.1, astype_uint64 r.2.2)) = rows := by
    apply list_map_id_of_mem
    intro r hr
    obtain ⟨h1, h2, h3⟩ := hrange r hr
    show (astype_uint64 r.1, astype_uint64 r.2.1, astype_uint64 r.2.2) = r
    unfold astype_uint64
    rw [Nat.mod_eq_of_lt h1, Nat.mod_eq_of_lt (by omega), Nat.mod_eq_of_lt (by omega)]
  have hlen : rows.length ≠ 0 := fun hc => hne (List.length_eq_zero.mp hc)
  obtain ⟨hproj, hcount⟩ := filterMap_metadata_props md rows hmd
  refine ⟨rows.filterMap fun r => (md r.1).map fun ts => (r.1, r.2.1, r.2.2, ts),
    ?_, hproj, hcount⟩
  rw [hpersist]
  simp only [load_processed_data]
  rw [if_neg hlen, hcast64]

/-- C5 witness: the one-row table [(1, 2, 3)] with total metadata
round-trips to itself. -/
theorem archive_round_trip_witness :
    (([((1 : ℕ), (2 : ℕ), (3 : ℕ))] : List Row) ≠ []) ∧
    (∀ r ∈ ([(1, 2, 3)] : List Row),
      r.1 < 18446744073709551616 ∧ r.2.1 < 65536 ∧ r.2.2 < 65536) ∧
    (∀ r ∈ ([(1, 2, 3)] : List Row), ((fun _ : ℕ => some 7) r.1).isSome) ∧
    ∃ merged : List MergedRow,
      load_processed_data (Except.ok (persist_rows [(1, 2, 3)])) (fun _ => some 7) =
        some merged ∧
      merged.map (fun m => (m.1, m.2.1, m.2.2.1)) = [(1, 2, 3)] ∧
      merged.length = ([(1, 2, 3)] : List Row).length := by
  have h1 : ([((1 : ℕ), (2 : ℕ), (3 : ℕ))] : List Row) ≠ [] := by simp
  have h2 : ∀ r ∈ ([(1, 2, 3)] : List Row),
      r.1 < 18446744073709551616 ∧ r.2.1 < 65536 ∧ r.2.2 < 65536 := by decide
  have h3 : ∀ r ∈ ([(1, 2, 3)] : List Row), ((fun _ : ℕ => some 7) r.1).isSome := by
    decide
  exact ⟨h1, h2, h3, archive_round_trip [(1, 2, 3)] (fun _ => some 7) h1 h2 h3⟩

/-- C6 counterexample: the persistence cast does not fail on a bee id
exceeding the unsigned 16-bit range; it silently wraps 70000 to 4464
(70000 mod 65536) and the archive row is written with the wrapped
value. -/
theorem persist_silently_truncates :
    persist_rows [(1, 70000, 2)] = [(1, 4464, 2)] ∧ (4464 : ℕ) ≠ 70000 :=
  ⟨rfl, by decide⟩

/-- C6 amended: at persistence time the bee id columns are cast to
unsigned 16-bit by silent reduction modulo 65536 (and frame_id modulo
2 to the 64); no row is rejected and no error is raised, so an
out-of-range id is truncated rather than reported. -/
theorem persist_truncates_modulo (rows : List Row) :
    (persist_rows rows).length = rows.length ∧
    ∀ i fid b0 b1 : ℕ, rows[i]? = some (fid, b0, b1) →
      (persist_rows rows)[i]? =
        some (fid % 18446744073709551616, b0 % 65536, b1 % 65536) := by
  constructor
  · exact List.length_map rows _
  · intro i fid b0 b1 hget
    unfold persist_rows
    rw [List.getElem?_map, hget]
    rfl

/-- C6 amended witness: the row (1, 70000, 2) at index 0 is persisted
as (1, 4464, 2). -/
theorem persist_truncates_modulo_witness :
    (([((1 : ℕ), (70000 : ℕ), (2 : ℕ))] : List Row)[0]? = some (1, 70000, 2)) ∧
    (persist_rows [(1, 70000, 2)])[0]? =
      some (1 % 18446744073709551616, 70000 % 65536, 2 % 65536) :=
  ⟨rfl, (persist_truncates_modulo [(1, 70000, 2)]).2 0 1 70000 2 rfl⟩
